import Mathlib

/-!
Verification development for `thermal_camera.py`, a HikMicro thermal-camera
viewer.  The script's module-level code is embedded shallowly:

* machine floats (`numpy.float32`) are modelled by exact rationals `ℚ`;
  `astype(np.uint8)` on the non-negative values produced by the pipeline is
  truncation toward zero, modelled by `Int.floor ∘ (· * 255)` after the
  `np.clip` to `[0, 1]`;
* raw capture buffers are `List ℕ` (byte values);
* a thermal frame is a pixel-indexed function `ℕ → ℚ` (row-major index);
* the device-discovery code reads the sysfs state of the machine, which may
  change over time while the retry loop sleeps; it is modelled by an
  environment `Env` giving, for each scan occurrence `t` (tick 0 is the
  initial scan, ticks 1..5 the retry scans), the result of
  `find_thermal_usb_sysfs` and of `find_thermal_video_device`.
-/

namespace ThermalCamera

/-- Sensor width (`w = 256` in the main loop, line 170). -/
def SENSOR_W : ℕ := 256

/-- Sensor height (`h = 192` in the main loop, line 170). -/
def SENSOR_H : ℕ := 192

/-- Temporal smoothing window size (`SMOOTH_FRAMES = 3`, line 111). -/
def SMOOTH_FRAMES : ℕ := 3

/-- The fixed ordered palette list (`COLORMAPS`, lines 118-125); only the
names matter for the state machine, the OpenCV colormap ids are opaque. -/
def COLORMAPS : List String :=
  ["Inferno", "Jet", "Hot", "Magma", "Turbo", "Plasma"]

/-- A thermal frame: row-major pixel index to intensity. -/
def Frame : Type := ℕ → ℚ

/-! ## Channel Extractor (lines 172-177)

`if len(raw_bytes) < h*w*2: continue` then
`frame_data = raw_bytes[:h*w*2].reshape(h, w*2); gray = frame_data[:, 0::2]`,
so `gray[r][c] = raw_bytes[r*(w*2) + 2*c]`.  The `continue` (drop the frame)
is the insufficient-data failure, modelled by `none`. -/

/-- Y-channel extraction from a YUYV buffer: fails when the buffer holds
fewer than `w*h*2` bytes, otherwise returns the grid of even-offset bytes. -/
def extract (raw : List ℕ) (w h : ℕ) : Option (ℕ → ℕ → ℕ) :=
  if raw.length < h * w * 2 then none
  else some (fun r c => (raw.take (h * w * 2)).getD (r * (w * 2) + 2 * c) 0)

/-! ## Temporal Smoother (lines 180-183)

`frame_buffer.append(gray); if len(frame_buffer) > SMOOTH_FRAMES:
frame_buffer.pop(0); thermal = np.mean(frame_buffer, axis=0)`. -/

/-- One push into the bounded FIFO `frame_buffer`. -/
def push (buf : List Frame) (g : Frame) : List Frame :=
  let b := buf ++ [g]
  if SMOOTH_FRAMES < b.length then b.tail else b

/-- The smoother's output: elementwise arithmetic mean over the frames
currently in the buffer (`np.mean(frame_buffer, axis=0)`). -/
def smoothOut (buf : List Frame) : Frame :=
  fun i => (buf.map (fun f => f i)).sum / (buf.length : ℚ)

/-- The buffer contents after pushing the frames of `fs` in order, starting
from the empty buffer the script initialises at line 112. -/
def pushAll (fs : List Frame) : List Frame :=
  fs.foldl push []

/-- The last `n` elements of a list. -/
def lastN (n : ℕ) (l : List Frame) : List Frame :=
  l.drop (l.length - n)

/-- Modelled from the spec's words, for comparison with the code: the exact
elementwise mean of the last `min SMOOTH_FRAMES count` frames pushed. -/
def specMean (fs : List Frame) : Frame :=
  fun i =>
    ((lastN (min SMOOTH_FRAMES fs.length) fs).map (fun f => f i)).sum /
      ((min SMOOTH_FRAMES fs.length : ℕ) : ℚ)

/-! ## Dynamic Range Normalizer (lines 189-197)

`t_min = thermal.min(); t_max = thermal.max(); t_range = max(t_max - t_min, 1);
t_mid = (t_min + t_max)/2; b_min = t_mid - (t_range/2)/contrast_boost;
b_max = t_mid + (t_range/2)/contrast_boost;
thermal_norm = np.clip((thermal - b_min)/(b_max - b_min), 0, 1);
thermal_8bit = (thermal_norm * 255).astype(np.uint8)`.
The frame is taken here as the flattened list of its pixel values. -/

/-- `thermal.min()` on a nonempty pixel list (0 on the empty list, which the
capture guard rules out). -/
def listMin : List ℚ → ℚ
  | [] => 0
  | x :: xs => xs.foldl min x

/-- `thermal.max()` on a nonempty pixel list. -/
def listMax : List ℚ → ℚ
  | [] => 0
  | x :: xs => xs.foldl max x

/-- `np.clip(·, 0, 1)`. -/
def clip01 (x : ℚ) : ℚ := min (max x 0) 1

/-- `(· * 255).astype(np.uint8)` for an already-clipped value in `[0,1]`:
truncation toward zero, i.e. the floor of the non-negative product. -/
def to8bit (x : ℚ) : ℕ := (⌊x * 255⌋).toNat

/-- `t_range = max(t_max - t_min, 1)`. -/
def t_range (t : List ℚ) : ℚ := max (listMax t - listMin t) 1

/-- `t_mid = (t_min + t_max) / 2`. -/
def t_mid (t : List ℚ) : ℚ := (listMin t + listMax t) / 2

/-- `b_min = t_mid - (t_range/2)/contrast_boost`. -/
def b_min (t : List ℚ) (contrast : ℚ) : ℚ :=
  t_mid t - (t_range t / 2) / contrast

/-- `b_max = t_mid + (t_range/2)/contrast_boost`. -/
def b_max (t : List ℚ) (contrast : ℚ) : ℚ :=
  t_mid t + (t_range t / 2) / contrast

/-- The normalizer's action on one pixel of value `v` of the frame `t`. -/
def normPixel (t : List ℚ) (contrast : ℚ) (v : ℚ) : ℕ :=
  to8bit (clip01 ((v - b_min t contrast) / (b_max t contrast - b_min t contrast)))

/-- The full normalization step: every pixel mapped through `normPixel`. -/
def normalize (t : List ℚ) (contrast : ℚ) : List ℕ :=
  t.map (normPixel t contrast)

/-! ## Contrast handling (lines 256-261) and palette cycling (lines 253-255). -/

/-- `contrast_boost = min(contrast_boost + 0.2, 5.0)` (keys `+` and `=`). -/
def contrastUp (c : ℚ) : ℚ := min (c + 2/10) 5

/-- `contrast_boost = max(contrast_boost - 0.2, 0.4)` (key `-`). -/
def contrastDown (c : ℚ) : ℚ := max (c - 2/10) (4/10)

/-- A user contrast command. -/
inductive ContrastCmd
  | up
  | down

/-- Processing of one contrast command. -/
def applyCmd : ContrastCmd → ℚ → ℚ
  | .up, c => contrastUp c
  | .down, c => contrastDown c

/-- Processing of a sequence of contrast commands, oldest first. -/
def applyCmds (cmds : List ContrastCmd) (c : ℚ) : ℚ :=
  cmds.foldl (fun a k => applyCmd k a) c

/-- `cmap_idx = (cmap_idx + 1) % len(COLORMAPS)` (key `c`, line 254). -/
def cycleCmap (i : ℕ) : ℕ := (i + 1) % COLORMAPS.length

/-! ## Session state and key handling (lines 246-261)

`key = cv2.waitKey(1) & 0xFF` and the `elif` chain on
`q` (113), `s` (115), `c` (99), `+` (43) / `=` (61), `-` (45).
`q` ends the session and `s` only writes a snapshot file; neither touches
the state fields below. -/

/-- The mutable state the main loop carries across iterations. -/
structure LoopState where
  frame_buffer : List Frame
  contrast_boost : ℚ
  cmap_idx : ℕ

/-- Effect of one (already `& 0xFF`-masked) key code on the loop state. -/
def handleKey (key : ℕ) (s : LoopState) : LoopState :=
  if key = 113 then s
  else if key = 115 then s
  else if key = 99 then { s with cmap_idx := cycleCmap s.cmap_idx }
  else if key = 43 ∨ key = 61 then { s with contrast_boost := contrastUp s.contrast_boost }
  else if key = 45 then { s with contrast_boost := contrastDown s.contrast_boost }
  else s

/-- One iteration of the main loop (lines 164-261), restricted to its effect
on the carried state: `cap = none` models `ret == False`; a short buffer hits
the `continue` at line 173; otherwise the Y channel is extracted and pushed
into the smoothing buffer, and the polled key is processed. -/
def iteration (s : LoopState) (cap : Option (List ℕ)) (rawKey : ℕ) : LoopState :=
  match cap with
  | none => s
  | some raw =>
    match extract raw SENSOR_W SENSOR_H with
    | none => s
    | some g =>
      let gray : Frame := fun i => (g (i / SENSOR_W) (i % SENSOR_W) : ℚ)
      handleKey (rawKey % 256) { s with frame_buffer := push s.frame_buffer gray }

/-! ## Device discovery and recovery (lines 64-91)

The startup code scans sysfs (`find_thermal_usb_sysfs`), exits with status 1
when no device matches the VID:PID, otherwise resolves the video node
(`find_thermal_video_device`); when a device matches but no node resolves it
calls `usb_reset_thermal()` once and then retries scan-and-resolve up to 5
times, sleeping 1 second per attempt; exhausting the retries exits with
status 1.  The filesystem state can change between scans, so the environment
gives the result of each scan occurrence `t`: tick 0 is the initial scan,
ticks 1..5 the retry attempts. -/

/-- The observable sysfs/V4L state, per scan occurrence: `scanAt t` is the
sysfs directory `find_thermal_usb_sysfs` returns at tick `t` (abstracted to a
number), `resolveAt t s` the video node `find_thermal_video_device s`
returns at tick `t`. -/
structure Env where
  scanAt : ℕ → Option ℕ
  resolveAt : ℕ → ℕ → Option ℕ

/-- Outcome of the startup code: either a video device was found (recording
how many USB resets were issued and at which tick the device resolved), or
the process exits with the given status code. -/
inductive Outcome
  | found (device : ℕ) (resets : ℕ) (tick : ℕ)
  | exitFail (code : ℕ) (resets : ℕ)
deriving DecidableEq

/-- The `for attempt in range(5)` retry loop (lines 78-85): each attempt
sleeps 1 s, re-scans, and re-resolves; it breaks as soon as a node resolves.
Returns the device and the tick at which it was found. -/
def retryLoop (env : Env) : ℕ → ℕ → Option (ℕ × ℕ)
  | _, 0 => none
  | tick, fuel + 1 =>
    match env.scanAt tick with
    | some s =>
      match env.resolveAt tick s with
      | some d => some (d, tick)
      | none => retryLoop env (tick + 1) fuel
    | none => retryLoop env (tick + 1) fuel

/-- The whole startup sequence (lines 66-91): initial scan, exit(1) when no
device matches, otherwise resolve; on resolution failure one USB reset and
the 5-attempt retry loop; exit(1) when the loop exhausts. -/
def startup (env : Env) : Outcome :=
  match env.scanAt 0 with
  | none => .exitFail 1 0
  | some s0 =>
    match env.resolveAt 0 s0 with
    | some d => .found d 0 0
    | none =>
      match retryLoop env 1 5 with
      | some (d, t) => .found d 1 t
      | none => .exitFail 1 1

/-- Tick `t` resolves a video node: the scan finds a sysfs device and the
resolver finds a node for it. -/
def resolves (env : Env) (t : ℕ) : Prop :=
  ∃ s d, env.scanAt t = some s ∧ env.resolveAt t s = some d

/-! ## Theorems -/

/-- C7: palette cycling is circular over the fixed ordered list of 6
palettes: the cycle command advances the index by one modulo 6, and applying
it exactly 6 times returns any in-range palette index to its original
value. -/
theorem claim_C7_palette_cycle :
    COLORMAPS.length = 6 ∧ (∀ i : ℕ, cycleCmap i = (i + 1) % 6) ∧
      (∀ i : ℕ, i < 6 → cycleCmap^[6] i = i) := by
  refine ⟨rfl, fun i => rfl, ?_⟩
  decide

/-- Witness for C7 at the concrete palette index 2. -/
theorem claim_C7_palette_cycle_witness : cycleCmap^[6] 2 = 2 :=
  claim_C7_palette_cycle.2.2 2 (by decide)

/-- C10: the `=` key code (61) is an additional binding for contrast-up: its
effect on the loop state is exactly that of the `+` key code (43), namely
increasing `contrast_boost` by 0.2 clamped at 5.0. -/
theorem claim_C10_equals_key_alias (s : LoopState) :
    handleKey 61 s = handleKey 43 s ∧
      handleKey 61 s = { s with contrast_boost := min (s.contrast_boost + 2/10) 5 } :=
  ⟨rfl, rfl⟩

/-- One contrast command keeps the contrast inside `[0.4, 5.0]`. -/
theorem applyCmd_bounds (k : ContrastCmd) (c : ℚ) (h1 : 4/10 ≤ c) (h2 : c ≤ 5) :
    4/10 ≤ applyCmd k c ∧ applyCmd k c ≤ 5 := by
  cases k
  · exact ⟨le_min (by linarith) (by norm_num), min_le_right _ _⟩
  · exact ⟨le_max_right _ _, max_le (by linarith) (by norm_num)⟩

/-- Any sequence of contrast commands keeps the contrast inside
`[0.4, 5.0]`, starting anywhere inside it. -/
theorem applyCmds_bounds (cmds : List ContrastCmd) :
    ∀ c : ℚ, 4/10 ≤ c → c ≤ 5 →
      4/10 ≤ applyCmds cmds c ∧ applyCmds cmds c ≤ 5 := by
  induction cmds with
  | nil => exact fun c h1 h2 => ⟨h1, h2⟩
  | cons k ks ih =>
    intro c h1 h2
    have h := applyCmd_bounds k c h1 h2
    simpa [applyCmds] using ih (applyCmd k c) h.1 h.2

/-- C4: for every sequence of contrast-up / contrast-down commands starting
from the initial contrast 1.0, the contrast after processing the commands
stays in `[0.4, 5.0]`; each adjustment is a 0.2 step clamped to those
bounds.  (Since `cmds` ranges over all sequences, this bounds the value
after every prefix of any longer sequence as well.) -/
theorem claim_C4_contrast_bounds (cmds : List ContrastCmd) :
    (4/10 ≤ applyCmds cmds 1 ∧ applyCmds cmds 1 ≤ 5) ∧
      (∀ c : ℚ, applyCmd ContrastCmd.up c = min (c + 2/10) 5) ∧
      (∀ c : ℚ, applyCmd ContrastCmd.down c = max (c - 2/10) (4/10)) :=
  ⟨applyCmds_bounds cmds 1 (by norm_num) (by norm_num),
    fun _ => rfl, fun _ => rfl⟩

/-- C5: when the initial bus scan matches no device, startup exits with
status 1 having issued no USB reset. -/
theorem claim_C5_no_device (env : Env) (h : env.scanAt 0 = none) :
    startup env = Outcome.exitFail 1 0 := by
  simp [startup, h]

/-- An environment in which the bus scan never matches. -/
def envNoDevice : Env := ⟨fun _ => none, fun _ _ => none⟩

/-- Witness for C5 on the concrete empty-bus environment. -/
theorem claim_C5_no_device_witness : startup envNoDevice = Outcome.exitFail 1 0 :=
  claim_C5_no_device envNoDevice rfl

/-- C3: channel extraction fails with the insufficient-data outcome exactly
when the raw buffer is shorter than `w*h*2` bytes (so in particular at
length `w*h*2 - 1`), and on a buffer of length at least `w*h*2` it succeeds
with the value at position (0,0) equal to byte 0 of the buffer. -/
theorem claim_C3_extract_short_buffer (raw : List ℕ) (w h : ℕ) (hw : 0 < w * h) :
    (extract raw w h = none ↔ raw.length < w * h * 2) ∧
      (w * h * 2 ≤ raw.length →
        ∃ g, extract raw w h = some g ∧ g 0 0 = raw.getD 0 0) := by
  have hcomm : h * w * 2 = w * h * 2 := by ring
  constructor
  · by_cases hc : raw.length < h * w * 2
    · simp [extract, hc, hcomm ▸ hc]
    · simp only [extract, if_neg hc]
      simp [hcomm ▸ hc]
  · intro hlen
    have hc : ¬ raw.length < h * w * 2 := by omega
    refine ⟨fun r c => (raw.take (h * w * 2)).getD (r * (w * 2) + 2 * c) 0,
      by simp [extract, hc], ?_⟩
    obtain ⟨a, t, rfl⟩ : ∃ a t, raw = a :: t := by
      cases raw with
      | nil => simp only [List.length_nil] at hlen; omega
      | cons a t => exact ⟨a, t, rfl⟩
    obtain ⟨m, hm⟩ : ∃ m, h * w * 2 = m + 1 :=
      ⟨h * w * 2 - 1, by omega⟩
    simp [hm, List.take_succ_cons]

/-- Witness for C3 with width 2, height 1 and the 4-byte buffer
`[7, 9, 8, 6]`. -/
theorem claim_C3_extract_short_buffer_witness :
    (extract [7, 9, 8, 6] 2 1 = none ↔ ([7, 9, 8, 6] : List ℕ).length < 2 * 1 * 2) ∧
      (2 * 1 * 2 ≤ ([7, 9, 8, 6] : List ℕ).length →
        ∃ g, extract [7, 9, 8, 6] 2 1 = some g ∧ g 0 0 = ([7, 9, 8, 6] : List ℕ).getD 0 0) :=
  claim_C3_extract_short_buffer [7, 9, 8, 6] 2 1 (by decide)

/-- The retry loop exhausts when no tick in its range resolves a node. -/
theorem retryLoop_eq_none (env : Env) (fuel : ℕ) :
    ∀ tick, (∀ u, tick ≤ u → u < tick + fuel → ¬ resolves env u) →
      retryLoop env tick fuel = none := by
  induction fuel with
  | zero => intro tick _; rfl
  | succ f ih =>
    intro tick h
    have hnr : ¬ resolves env tick := h tick le_rfl (by omega)
    cases hscan : env.scanAt tick with
    | none =>
      simp only [retryLoop, hscan]
      exact ih (tick + 1) fun u h1 h2 => h u (by omega) (by omega)
    | some s =>
      cases hres : env.resolveAt tick s with
      | none =>
        simp only [retryLoop, hscan, hres]
        exact ih (tick + 1) fun u h1 h2 => h u (by omega) (by omega)
      | some d => exact absurd ⟨s, d, hscan, hres⟩ hnr

/-- The retry loop stops at the first tick in its range that resolves a
node, returning that node and that tick. -/
theorem retryLoop_eq_found (env : Env) (fuel : ℕ) :
    ∀ tick t s d, tick ≤ t → t < tick + fuel →
      env.scanAt t = some s → env.resolveAt t s = some d →
      (∀ u, tick ≤ u → u < t → ¬ resolves env u) →
      retryLoop env tick fuel = some (d, t) := by
  induction fuel with
  | zero => intro tick t s d h1 h2 _ _ _; omega
  | succ f ih =>
    intro tick t s d h1 h2 hs hd hmin
    rcases eq_or_lt_of_le h1 with rfl | hlt
    · simp only [retryLoop, hs, hd]
    · have hnr : ¬ resolves env tick := hmin tick le_rfl hlt
      cases hscan : env.scanAt tick with
      | none =>
        simp only [retryLoop, hscan]
        exact ih (tick + 1) t s d (by omega) (by omega) hs hd
          fun u h1 h2 => hmin u (by omega) h2
      | some s' =>
        cases hres : env.resolveAt tick s' with
        | none =>
          simp only [retryLoop, hscan, hres]
          exact ih (tick + 1) t s d (by omega) (by omega) hs hd
            fun u h1 h2 => hmin u (by omega) h2
        | some d' => exact absurd ⟨s', d', hscan, hres⟩ hnr

/-- C6: when the initial scan matches a device but no video node resolves,
startup issues one USB reset and re-runs scan-and-resolve for at most the 5
retry ticks: if none of ticks 1..5 resolves a node, it exits with status 1
(after the single reset); if some tick `t ≤ 5` is the first to resolve a
node `d`, it stops retrying at that tick and reports `d` found at tick `t`
after the single reset. -/
theorem claim_C6_reset_and_retry (env : Env) (s0 : ℕ)
    (hscan0 : env.scanAt 0 = some s0) (hres0 : env.resolveAt 0 s0 = none) :
    ((∀ t, 1 ≤ t → t ≤ 5 → ¬ resolves env t) →
        startup env = Outcome.exitFail 1 1) ∧
      (∀ t s d, 1 ≤ t → t ≤ 5 →
        env.scanAt t = some s → env.resolveAt t s = some d →
        (∀ u, 1 ≤ u → u < t → ¬ resolves env u) →
        startup env = Outcome.found d 1 t) := by
  constructor
  · intro hnone
    have h5 : retryLoop env 1 5 = none :=
      retryLoop_eq_none env 5 1 fun u h1 h2 => hnone u h1 (by omega)
    simp [startup, hscan0, hres0, h5]
  · intro t s d h1 h5 hs hd hmin
    have hfound : retryLoop env 1 5 = some (d, t) :=
      retryLoop_eq_found env 5 1 t s d h1 (by omega) hs hd hmin
    simp [startup, hscan0, hres0, hfound]

/-- An environment with a matched bus device whose node never resolves. -/
def envNeverBinds : Env := ⟨fun _ => some 0, fun _ _ => none⟩

/-- An environment with a matched bus device whose node resolves only from
tick 3 on (node number 7). -/
def envBindsAt3 : Env :=
  ⟨fun _ => some 0, fun t _ => if 3 ≤ t then some 7 else none⟩

/-- Witness for C6 on the two concrete environments: exhaustion after the
reset, and first resolution at tick 3. -/
theorem claim_C6_reset_and_retry_witness :
    startup envNeverBinds = Outcome.exitFail 1 1 ∧
      startup envBindsAt3 = Outcome.found 7 1 3 := by
  constructor
  · exact (claim_C6_reset_and_retry envNeverBinds 0 rfl rfl).1
      (fun t _ _ h => by  simp [resolves, envNeverBinds] at h)
  · exact (claim_C6_reset_and_retry envBindsAt3 0 rfl rfl).2 3 0 7
      (by decide) (by decide) rfl rfl
      (fun u hu1 hu2 h => by
        obtain ⟨s, d, _, hd⟩ := h
        rw [show envBindsAt3.resolveAt u s = if 3 ≤ u then some 7 else none from rfl,
          if_neg (by omega)] at hd
        exact Option.noConfusion hd)

/-- Pushing one more frame is one `push` on the accumulated buffer. -/
theorem pushAll_append (fs : List Frame) (g : Frame) :
    pushAll (fs ++ [g]) = push (pushAll fs) g := by
  simp [pushAll, List.foldl_append]

/-- The length of the last-`n` suffix. -/
theorem length_lastN (n : ℕ) (l : List Frame) :
    (lastN n l).length = min n l.length := by
  simp only [lastN, List.length_drop]
  omega

/-- One `push` keeps the buffer equal to the last-3 suffix of everything
pushed so far. -/
theorem push_lastN (fs : List Frame) (g : Frame) :
    push (lastN SMOOTH_FRAMES fs) g = lastN SMOOTH_FRAMES (fs ++ [g]) := by
  by_cases hn : fs.length ≤ 2
  · have h0 : fs.length - SMOOTH_FRAMES = 0 := by
      simp only [SMOOTH_FRAMES]; omega
    have h1 : (fs ++ [g]).length - SMOOTH_FRAMES = 0 := by
      simp only [SMOOTH_FRAMES, List.length_append, List.length_singleton]; omega
    have hc2 : ¬ SMOOTH_FRAMES < fs.length + 1 := by
      simp only [SMOOTH_FRAMES]; omega
    have h1' : fs.length + 1 - SMOOTH_FRAMES = 0 := by
      simp only [SMOOTH_FRAMES]; omega
    simp [push, lastN, h0, hc2, h1']
  · have hge : 3 ≤ fs.length := by omega
    have hlen : (lastN SMOOTH_FRAMES fs).length = 3 := by
      rw [length_lastN]; simp only [SMOOTH_FRAMES]; omega
    have hc : SMOOTH_FRAMES < (lastN SMOOTH_FRAMES fs ++ [g]).length := by
      rw [List.length_append, hlen]
      simp only [SMOOTH_FRAMES, List.length_singleton]
      omega
    have hne : lastN SMOOTH_FRAMES fs ≠ [] := by
      intro h; rw [h] at hlen; simp at hlen
    simp only [push, if_pos hc]
    rw [List.tail_append_singleton_of_ne_nil hne]
    simp only [lastN, List.tail_drop]
    have hd : (fs ++ [g]).length - SMOOTH_FRAMES = fs.length - SMOOTH_FRAMES + 1 := by
      simp only [SMOOTH_FRAMES, List.length_append, List.length_singleton]; omega
    rw [hd, List.drop_append_of_le_length (by simp only [SMOOTH_FRAMES]; omega)]

/-- The smoothing buffer always holds exactly the last
`min SMOOTH_FRAMES count` frames pushed. -/
theorem pushAll_eq_lastN (fs : List Frame) :
    pushAll fs = lastN SMOOTH_FRAMES fs := by
  induction fs using List.reverseRecOn with
  | nil => rfl
  | append_singleton fs g ih => rw [pushAll_append, ih, push_lastN]

/-- Dropping to the last `SMOOTH_FRAMES` elements is the same as dropping to
the last `min SMOOTH_FRAMES count` elements. -/
theorem lastN_min (fs : List Frame) :
    lastN SMOOTH_FRAMES fs = lastN (min SMOOTH_FRAMES fs.length) fs := by
  simp only [lastN]
  congr 1
  omega

/-- C2: with the window size fixed at `SMOOTH_FRAMES = 3`, after any
sequence of pushes (starting from the empty buffer) the smoother's buffer
holds exactly the last `min 3 count` frames pushed, and its output is the
exact elementwise arithmetic mean of those frames, recomputed from the
stored frames. -/
theorem claim_C2_temporal_smoother (fs : List Frame) :
    SMOOTH_FRAMES = 3 ∧
      pushAll fs = lastN (min SMOOTH_FRAMES fs.length) fs ∧
      ∀ i, smoothOut (pushAll fs) i = specMean fs i := by
  have hbuf : pushAll fs = lastN (min SMOOTH_FRAMES fs.length) fs := by
    rw [pushAll_eq_lastN, lastN_min]
  refine ⟨rfl, hbuf, fun i => ?_⟩
  rw [hbuf]
  simp only [smoothOut, specMean, length_lastN]
  congr 2
  omega

/-- `thermal.min()` of a constant frame is that constant. -/
theorem listMin_replicate (n : ℕ) (v : ℚ) :
    listMin (List.replicate (n + 1) v) = v := by
  have h : ∀ m : ℕ, (List.replicate m v).foldl min v = v := by
    intro m
    induction m with
    | zero => rfl
    | succ k ih => simpa [List.replicate_succ, min_self] using ih
  rw [List.replicate_succ]
  show (List.replicate n v).foldl min v = v
  exact h n

/-- `thermal.max()` of a constant frame is that constant. -/
theorem listMax_replicate (n : ℕ) (v : ℚ) :
    listMax (List.replicate (n + 1) v) = v := by
  have h : ∀ m : ℕ, (List.replicate m v).foldl max v = v := by
    intro m
    induction m with
    | zero => rfl
    | succ k ih => simpa [List.replicate_succ, max_self] using ih
  rw [List.replicate_succ]
  show (List.replicate n v).foldl max v = v
  exact h n

/-- C1 (amended): on a perfectly flat nonempty frame the normalizer's
denominator `b_max - b_min` is nonzero (no division by zero) for every
positive contrast, and every pixel of the 8-bit output equals the constant
near-mid-gray 127 — not 128: `0.5 * 255 = 127.5` truncates to 127 under the
`astype(np.uint8)` conversion. -/
theorem claim_C1_flat_frame (n : ℕ) (v c : ℚ) (hc : 0 < c) :
    b_max (List.replicate (n + 1) v) c - b_min (List.replicate (n + 1) v) c ≠ 0 ∧
      ∀ y ∈ normalize (List.replicate (n + 1) v) c, y = 127 := by
  have hmin := listMin_replicate n v
  have hmax := listMax_replicate n v
  have hc' : c ≠ 0 := ne_of_gt hc
  have hrange : t_range (List.replicate (n + 1) v) = 1 := by
    rw [t_range, hmin, hmax]
    simp
  have hmid : t_mid (List.replicate (n + 1) v) = v := by
    rw [t_mid, hmin, hmax]
    ring
  have hbmin : b_min (List.replicate (n + 1) v) c = v - 1 / (2 * c) := by
    rw [b_min, hrange, hmid]
    ring
  have hbmax : b_max (List.replicate (n + 1) v) c = v + 1 / (2 * c) := by
    rw [b_max, hrange, hmid]
    ring
  have hdiff : b_max (List.replicate (n + 1) v) c -
      b_min (List.replicate (n + 1) v) c = 1 / c := by
    rw [hbmax, hbmin]
    ring
  refine ⟨by rw [hdiff]; exact one_div_ne_zero hc', ?_⟩
  intro y hy
  simp only [normalize, List.mem_map] at hy
  obtain ⟨x, hx, rfl⟩ := hy
  have hxv : x = v := List.eq_of_mem_replicate hx
  subst hxv
  have harg : (x - b_min (List.replicate (n + 1) x) c) /
      (b_max (List.replicate (n + 1) x) c - b_min (List.replicate (n + 1) x) c)
      = 1 / 2 := by
    rw [hdiff, hbmin]
    field_simp
    ring
  rw [normPixel, harg]
  norm_num [to8bit, clip01]
  rfl

/-- Witness for C1 with a 3-pixel flat frame of value 100 and contrast 1. -/
theorem claim_C1_flat_frame_witness :
    b_max (List.replicate 3 (100 : ℚ)) 1 - b_min (List.replicate 3 (100 : ℚ)) 1 ≠ 0 ∧
      ∀ y ∈ normalize (List.replicate 3 (100 : ℚ)) 1, y = 127 :=
  claim_C1_flat_frame 2 100 1 one_pos

/-- C1 counterexample to the claim as stated: on the flat two-pixel frame of
value 100 with contrast 1 the normalizer outputs 127 at every pixel, and
127 ≠ 128. -/
theorem claim_C1_not_128 :
    normalize (List.replicate 2 (100 : ℚ)) 1 = [127, 127] ∧ (127 : ℕ) ≠ 128 := by
  have hrepl : List.replicate 2 (100 : ℚ) = [100, 100] := rfl
  rw [hrepl]
  have hmin : listMin [(100 : ℚ), 100] = 100 := by
    norm_num [listMin, List.foldl]
  have hmax : listMax [(100 : ℚ), 100] = 100 := by
    norm_num [listMax, List.foldl]
  refine ⟨?_, by decide⟩
  have hp : normPixel [(100 : ℚ), 100] 1 100 = 127 := by
    rw [normPixel, b_min, b_max, t_mid, t_range, hmin, hmax]
    norm_num [to8bit, clip01]
    rfl
  simp [normalize, hp]

/-- C8 (amended): for a frame whose intensity span `max - min` is at least
1, at contrast exactly 1 the normalizer maps a pixel at the minimum to 0 and
a pixel at the maximum to 255, exactly. -/
theorem claim_C8_endpoints (t : List ℚ) (h : 1 ≤ listMax t - listMin t) :
    normPixel t 1 (listMin t) = 0 ∧ normPixel t 1 (listMax t) = 255 := by
  have hne : listMax t - listMin t ≠ 0 := (lt_of_lt_of_le zero_lt_one h).ne'
  have hrange : t_range t = listMax t - listMin t := max_eq_left h
  have hbmin : b_min t 1 = listMin t := by
    rw [b_min, hrange, t_mid]
    ring
  have hbmax : b_max t 1 = listMax t := by
    rw [b_max, hrange, t_mid]
    ring
  constructor
  · rw [normPixel, hbmin, hbmax, sub_self, zero_div]
    norm_num [to8bit, clip01]
  · rw [normPixel, hbmin, hbmax, div_self hne]
    norm_num [to8bit, clip01]
    rfl

/-- Witness for C8 on the concrete frame `[0, 2]` at contrast 1. -/
theorem claim_C8_endpoints_witness :
    normPixel [(0 : ℚ), 2] 1 (listMin [(0 : ℚ), 2]) = 0 ∧
      normPixel [(0 : ℚ), 2] 1 (listMax [(0 : ℚ), 2]) = 255 :=
  claim_C8_endpoints [0, 2] (by norm_num [listMax, listMin, List.foldl])

/-- C8 counterexample to the claim as stated: the non-flat frame `[0, 1/2]`
(span below one raw count, so the `max(range, 1)` guard widens the window)
maps its minimum pixel to 63 and its maximum pixel to 191 at contrast 1,
not to 0 and 255. -/
theorem claim_C8_small_span_counterexample :
    listMin [(0 : ℚ), 1/2] < listMax [(0 : ℚ), 1/2] ∧
      normPixel [(0 : ℚ), 1/2] 1 (listMin [(0 : ℚ), 1/2]) = 63 ∧
      normPixel [(0 : ℚ), 1/2] 1 (listMax [(0 : ℚ), 1/2]) = 191 ∧
      (63 : ℕ) ≠ 0 ∧ (191 : ℕ) ≠ 255 := by
  have hm : listMin [(0 : ℚ), 1/2] = 0 := by
    norm_num [listMin, List.foldl]
  have hM : listMax [(0 : ℚ), 1/2] = 1/2 := by
    norm_num [listMax, List.foldl]
  have hrange : t_range [(0 : ℚ), 1/2] = 1 := by
    rw [t_range, hm, hM]
    norm_num
  have hbmin : b_min [(0 : ℚ), 1/2] 1 = -(1/4) := by
    rw [b_min, hrange, t_mid, hm, hM]
    norm_num
  have hbmax : b_max [(0 : ℚ), 1/2] 1 = 3/4 := by
    rw [b_max, hrange, t_mid, hm, hM]
    norm_num
  refine ⟨by rw [hm, hM]; norm_num, ?_, ?_, by decide, by decide⟩
  · rw [hm, normPixel, hbmin, hbmax]
    norm_num [to8bit, clip01]
    rfl
  · rw [hM, normPixel, hbmin, hbmax]
    norm_num [to8bit, clip01]
    rfl

/-- C9: when the capture fails (`ret` false) or the raw buffer is shorter
than `width*height*2` bytes, the loop iteration leaves the whole carried
state — smoothing buffer, contrast and palette index — exactly unchanged. -/
theorem claim_C9_drop_is_atomic (s : LoopState) (rawKey : ℕ) :
    iteration s none rawKey = s ∧
      ∀ raw : List ℕ, raw.length < SENSOR_W * SENSOR_H * 2 →
        iteration s (some raw) rawKey = s := by
  refine ⟨rfl, fun raw h => ?_⟩
  have h' : raw.length < SENSOR_H * SENSOR_W * 2 := by
    simp only [SENSOR_W, SENSOR_H] at h ⊢
    omega
  simp [iteration, extract, h']

/-- Witness for C9 on a concrete state, a failed capture and an empty
buffer. -/
theorem claim_C9_drop_is_atomic_witness :
    iteration ⟨[], 1, 0⟩ none 0 = (⟨[], 1, 0⟩ : LoopState) ∧
      iteration ⟨[], 1, 0⟩ (some []) 0 = (⟨[], 1, 0⟩ : LoopState) :=
  ⟨(claim_C9_drop_is_atomic ⟨[], 1, 0⟩ 0).1,
    (claim_C9_drop_is_atomic ⟨[], 1, 0⟩ 0).2 [] (by decide)⟩

end ThermalCamera
